import Mathlib

/-!
Verification of the simulation-based combinational equivalence checker in
src/include/mockturtle/algorithms/simulation_cec.hpp.

The planner, pattern generator, round loop, aggregator and entry point are
embedded from the source. The external collaborators that the source file
only declares or includes (the kitty truth-table library, the node map, the
miter builder and the propagation engine of simulation.hpp, none of which are
under src/) are modelled from the spec, each marked in its doc comment.

Machine integers are modelled as Nat; the one place a 32-bit store can
overflow on reachable inputs (the rounds counter) carries an explicit
mod 2 ^ 32. The double-precision arithmetic of max_m_ is modelled as exact
real arithmetic: over Nat for the region where the log argument is at least
one (nodeCount up to 16268815, where floor commutes with both the division
and the base-2 logarithm), and over the rationals (max_m_exact, via Int.log)
for the boundary analysis beyond that region.
-/

namespace Mockturtle

/-- Modelled from the spec: kitty dynamic_truth_table, a bit-vector of
2 ^ num_vars bits; bits holds the contents as a natural number below
2 ^ 2 ^ num_vars. -/
structure dynamic_truth_table where
  num_vars : Nat
  bits : Nat
  deriving DecidableEq

/-- Modelled from the spec: the all-zero constant pattern of width w, the
value of a freshly constructed dynamic_truth_table. -/
def ttConst0 (w : Nat) : dynamic_truth_table := ⟨w, 0⟩

/-- The all-one mask on 2 ^ w bits. -/
def ttMaskBits (w : Nat) : Nat := 2 ^ (2 ^ w) - 1

/-- Modelled from the spec: the all-one constant pattern of width w. -/
def ttConst1 (w : Nat) : dynamic_truth_table := ⟨w, ttMaskBits w⟩

/-- Modelled from the spec: kitty bitwise complement (operator ~),
flipping all 2 ^ num_vars bits. -/
def tt_not (t : dynamic_truth_table) : dynamic_truth_table :=
  ⟨t.num_vars, ttMaskBits t.num_vars ^^^ t.bits⟩

/-- Modelled from the spec: kitty is_const0, the test that every bit of the
table is zero. -/
def is_const0 (t : dynamic_truth_table) : Bool := t.bits == 0

/-- The number below 2 ^ n whose bit p equals f p, for p below n. -/
def natOfBits (f : Nat → Bool) : Nat → Nat
  | 0 => 0
  | n + 1 => natOfBits f n + (if f n then 2 ^ n else 0)

/-- Modelled from the spec: kitty create_nth_var, the canonical variable
pattern for variable i over a w-wide truth table: bit p is bit i of p,
so the variable alternates with period 2 ^ i. -/
def create_nth_var (w i : Nat) : dynamic_truth_table :=
  ⟨w, natOfBits (fun p => p.testBit i) (2 ^ w)⟩

/-- max_m_ from the source: log(pow(2,29)/nodes.size()-32)/log(2)+3,
the double arithmetic read as exact arithmetic over Nat (truncated
division and subtraction, Nat.log 2 as the floor of the base-2 log);
faithful to the double computation for nodeCount up to 16268815, where
the log argument is at least one. -/
def max_m_ (nodeCount : Nat) : Nat := Nat.log 2 (2 ^ 29 / nodeCount - 32) + 3

/-- Exact-arithmetic model of max_m_ over the rationals, used where the Nat
reading is not faithful (log argument below one): the uint32_t cast of
log2(2^29/nodeCount - 32) + 3 equals floor of the base-2 log plus 3
whenever that sum is nonnegative, and Int.log is that floor. -/
def max_m_exact (nodeCount : Nat) : ℤ :=
  Int.log 2 ((2 ^ 29 : ℚ) / (nodeCount : ℚ) - 32) + 3

/-- split_var_ from the source: N is num_pis of the miter network. -/
def split_var_ (nodeCount N : Nat) : Nat :=
  if N > max_m_ nodeCount then max_m_ nodeCount else N

/-- split_var_ evaluated through the exact rational model of max_m_,
mirroring the same if-else on the stored 32-bit values. -/
def split_var_exact (nodeCount N : Nat) : ℤ :=
  if (N : ℤ) > max_m_exact nodeCount then max_m_exact nodeCount else (N : ℤ)

/-- rounds_ from the source: pow(2, N - split_var) stored into a uint32_t,
hence taken mod 2 ^ 32 (the double value is exact for these exponents; the
narrowing store is what can wrap). -/
def rounds_ (N split_count : Nat) : Nat := 2 ^ (N - split_count) % 2 ^ 32

/-- get_pattern_ from the source: keep tt when the input is a split variable
or the selected round bit is one, else complement tt. -/
def get_pattern_ (split_count pi_number round_number : Nat)
    (tt : dynamic_truth_table) : dynamic_truth_table :=
  if pi_number ≤ split_count ∨ (round_number >>> (pi_number - split_count - 1)) % 2 = 1 then tt
  else tt_not tt

/-- The tt value the run loop builds before calling get_pattern_: a fresh
all-zero table, overwritten with the nth-var pattern for split inputs. -/
def loop_tt (split_count pi_number : Nat) : dynamic_truth_table :=
  if pi_number ≤ split_count then create_nth_var split_count (pi_number - 1)
  else ttConst0 split_count

/-- The pattern the run loop stores for primary input pi_number (1-based)
in round round_number. -/
def pi_pattern (split_count round_number pi_number : Nat) : dynamic_truth_table :=
  get_pattern_ split_count pi_number round_number (loop_tt split_count pi_number)

/-- The pattern map entry for every primary input in one round. -/
def pi_map (split_count round_number : Nat) : Nat → dynamic_truth_table :=
  fun pi_number => pi_pattern split_count round_number pi_number

/-- is_equivalent_ from the source: fold every primary output into the
running verdict, complementing the pattern first when the output signal is
complemented. Each list entry is the complemented flag of one primary
output together with its post-propagation pattern. -/
def is_equivalent_ (pos : List (Bool × dynamic_truth_table)) (acc : Bool) : Bool :=
  pos.foldl
    (fun b f => if f.1 then b && is_const0 (tt_not f.2) else b && is_const0 f.2) acc

/-- The per-output test of the aggregator, as the spec words it: complement
exactly when the polarity is complemented, then test for all-zero. -/
def po_check (f : Bool × dynamic_truth_table) : Bool :=
  is_const0 (if f.1 then tt_not f.2 else f.2)

/-- Modelled from the spec: the miter network as the driver sees it.
nodeCount is the storage node count, numPis the primary-input count, and
each primary output is its complemented flag together with the propagation
engine applied to that output node, as a function of the primary-input
pattern map (spec section 6: simulate recomputes every node pattern from the
primary-input patterns, in dependency order, once per call). -/
structure MiterNet where
  nodeCount : Nat
  numPis : Nat
  poFuncs : List (Bool × ((Nat → dynamic_truth_table) → dynamic_truth_table))

/-- The primary-output patterns after propagation in one round. -/
def round_pos (net : MiterNet) (split_count round_number : Nat) :
    List (Bool × dynamic_truth_table) :=
  net.poFuncs.map (fun f => (f.1, f.2 (pi_map split_count round_number)))

/-- The running verdict after the first k rounds of the run loop. -/
def verdict_after (net : MiterNet) (k : Nat) : Bool :=
  (List.range k).foldl
    (fun b r => is_equivalent_ (round_pos net (split_var_ net.nodeCount net.numPis) r) b)
    true

/-- run from the source: compute the split plan, then fold the aggregator
over every round index below the stored rounds count. -/
def run (net : MiterNet) : Bool :=
  verdict_after net (rounds_ net.numPis (split_var_ net.nodeCount net.numPis))

/-- simulation_cec_stats from the source. -/
structure simulation_cec_stats where
  split_var : Nat
  rounds : Nat
  deriving DecidableEq

/-- The stats values run writes before its loop. -/
def run_stats (net : MiterNet) : simulation_cec_stats :=
  ⟨split_var_ net.nodeCount net.numPis,
   rounds_ net.numPis (split_var_ net.nodeCount net.numPis)⟩

/-- simulation_cec from the source. The first argument is num_pis of the
first network; the second models the miter collaborator output (none when
the networks are incompatible). The second component of the result is the
stats the caller observes through a non-null pst: some when the publication
line `*pst = st` is reached, none when the early return skips it. -/
def simulation_cec (num_pis1 : Nat) (ntk_miter : Option MiterNet) :
    Option Bool × Option simulation_cec_stats :=
  if num_pis1 > 40 then (none, none)
  else
    match ntk_miter with
    | some net => (some (run net), some (run_stats net))
    | none => (some false, some ⟨0, 0⟩)

/-! Shared helper lemmas. -/

theorem ttConst0_ne_ttConst1 (w : Nat) : ttConst0 w ≠ ttConst1 w := by
  intro hcontra
  have h2 : 2 ≤ 2 ^ (2 ^ w) := by
    calc 2 = 2 ^ 1 := rfl
    _ ≤ 2 ^ (2 ^ w) := Nat.pow_le_pow_right (by norm_num) Nat.one_le_two_pow
  have hbits := congrArg dynamic_truth_table.bits hcontra
  simp only [ttConst0, ttConst1, ttMaskBits] at hbits
  omega

theorem tt_not_ttConst0 (w : Nat) : tt_not (ttConst0 w) = ttConst1 w := by
  simp [tt_not, ttConst0, ttConst1]

theorem shiftRight_mod_two_eq_one_iff (r j : Nat) :
    (r >>> j) % 2 = 1 ↔ r.testBit j = true := by
  rw [Nat.testBit_to_div_mod, Nat.shiftRight_eq_div_pow]
  simp

theorem is_equivalent_eq_all (pos : List (Bool × dynamic_truth_table)) (acc : Bool) :
    is_equivalent_ pos acc = (acc && pos.all po_check) := by
  induction pos generalizing acc with
  | nil => simp [is_equivalent_]
  | cons f tl ih =>
    have hstep : is_equivalent_ (f :: tl) acc
        = is_equivalent_ tl
            (if f.1 then acc && is_const0 (tt_not f.2) else acc && is_const0 f.2) := rfl
    rw [hstep, ih]
    cases h1 : f.1 <;> simp [po_check, h1, Bool.and_assoc]

theorem foldl_is_equivalent_eq_all (g : Nat → List (Bool × dynamic_truth_table))
    (l : List Nat) (acc : Bool) :
    l.foldl (fun b r => is_equivalent_ (g r) b) acc
      = (acc && l.all fun r => (g r).all po_check) := by
  induction l generalizing acc with
  | nil => simp
  | cons r tl ih =>
    simp only [List.foldl_cons, List.all_cons]
    rw [ih, is_equivalent_eq_all, Bool.and_assoc]

theorem verdict_after_eq_all (net : MiterNet) (k : Nat) :
    verdict_after net k
      = (List.range k).all
          (fun r => (round_pos net (split_var_ net.nodeCount net.numPis) r).all po_check) := by
  unfold verdict_after
  rw [foldl_is_equivalent_eq_all]
  simp

theorem all_range_mono (f : Nat → Bool) {k j : Nat} (h : k ≤ j)
    (hj : (List.range j).all f = true) : (List.range k).all f = true := by
  rw [List.all_eq_true] at hj ⊢
  intro r hr
  exact hj r (List.mem_range.mpr (lt_of_lt_of_le (List.mem_range.mp hr) h))

/-! Claim C1. -/

/-- C1: Pattern Generator rule. For every round index, every split width and
every 1-based primary-input index pi_number, the pattern written into the
pattern map is the canonical variable pattern for variable pi_number - 1
when pi_number is at most split_count (independent of the round), and
otherwise, with bit = (round_number >> (pi_number - split_count - 1)) & 1,
the all-zero constant pattern when bit = 1 and the all-one constant pattern
when bit = 0. -/
theorem pattern_generator_rule (split_count round_number pi_number : Nat)
    (h : 1 ≤ pi_number) :
    pi_pattern split_count round_number pi_number =
      if pi_number ≤ split_count then create_nth_var split_count (pi_number - 1)
      else if (round_number >>> (pi_number - split_count - 1)) % 2 = 1 then
        ttConst0 split_count
      else ttConst1 split_count := by
  unfold pi_pattern get_pattern_ loop_tt
  by_cases h1 : pi_number ≤ split_count
  · simp [h1]
  · by_cases h2 : (round_number >>> (pi_number - split_count - 1)) % 2 = 1
    · simp [h1, h2]
    · simp [h1, h2, tt_not_ttConst0]

/-- Witness for C1 at split_count = 2, round_number = 5, pi_number = 4:
the round bit is (5 >> 1) & 1 = 0, so the pattern is the all-one constant. -/
theorem pattern_generator_rule_witness :
    1 ≤ 4 ∧
      pi_pattern 2 5 4 =
        (if 4 ≤ 2 then create_nth_var 2 (4 - 1)
         else if (5 >>> (4 - 2 - 1)) % 2 = 1 then ttConst0 2 else ttConst1 2) :=
  ⟨by decide, pattern_generator_rule 2 5 4 (by decide)⟩

/-! Claim C2. -/

/-- C2: evaluation of the split plan at the failing input
nodeCount = 8388608 (2 ^ 23 nodes), primaryInputCount = 40. The plan
computes splitVarCount = 8, so the claimed roundCount is
2 ^ (40 - 8) = 2 ^ 32; the 32-bit rounds field wraps that value to 0, so
the stored plan diverges from the claimed roundCount = 2 ^ 32 and the
round loop runs zero times. -/
theorem rounds_overflow_at_failing_input :
    split_var_ 8388608 40 = 8 ∧ rounds_ 40 (split_var_ 8388608 40) = 0 ∧
      2 ^ (40 - split_var_ 8388608 40) = 2 ^ 32 := by
  have harg : 2 ^ 29 / 8388608 - 32 = 32 := by norm_num
  have hlog : Nat.log 2 32 = 5 :=
    Nat.log_eq_of_pow_le_of_lt_pow (by norm_num) (by norm_num)
  have hm : max_m_ 8388608 = 8 := by unfold max_m_; rw [harg, hlog]
  have hs : split_var_ 8388608 40 = 8 := by unfold split_var_; rw [hm]; norm_num
  refine ⟨hs, ?_, ?_⟩
  · rw [hs]; unfold rounds_; norm_num
  · rw [hs]

/-! Claim C3. -/

theorem pi_pattern_const (split_count r j : Nat) :
    pi_pattern split_count r (split_count + 1 + j)
      = (if r.testBit j then ttConst0 split_count else ttConst1 split_count) := by
  have hgt : ¬ (split_count + 1 + j ≤ split_count) := by omega
  have hidx : split_count + 1 + j - split_count - 1 = j := by omega
  unfold pi_pattern get_pattern_ loop_tt
  rw [hidx]
  by_cases hb : (r >>> j) % 2 = 1
  · have ht : r.testBit j = true := (shiftRight_mod_two_eq_one_iff r j).mp hb
    simp [hgt, hb, ht]
  · have ht : r.testBit j = false := by
      cases htb : r.testBit j with
      | false => rfl
      | true => exact absurd ((shiftRight_mod_two_eq_one_iff r j).mpr htb) hb
    simp [hgt, hb, ht, tt_not_ttConst0]

theorem pi_pattern_const_decide (split_count r j : Nat) :
    decide (pi_pattern split_count r (split_count + 1 + j) = ttConst1 split_count)
      = !(r.testBit j) := by
  rw [pi_pattern_const]
  cases h : r.testBit j <;> simp [h, ttConst0_ne_ttConst1]

/-- C3: Round coverage completeness. For split_count < num_pis, the map
sending a round index r below 2 ^ (num_pis - split_count) to the tuple of
constant values assigned to the primary inputs beyond split_count (recorded
as whether each such input receives the all-one constant pattern) is a
bijection onto all assignments: every assignment arises in exactly one
round, with no duplicates and no omissions. -/
theorem round_coverage_bijective (split_count num_pis : Nat)
    (h : split_count < num_pis) :
    Function.Bijective (fun r : Fin (2 ^ (num_pis - split_count)) =>
      (fun j : Fin (num_pis - split_count) =>
        decide (pi_pattern split_count r.val (split_count + 1 + j.val)
          = ttConst1 split_count))) := by
  rw [Fintype.bijective_iff_injective_and_card]
  constructor
  · intro a b hab
    apply Fin.ext
    apply Nat.eq_of_testBit_eq
    intro i
    by_cases hi : i < num_pis - split_count
    · have h1 := congrFun hab ⟨i, hi⟩
      simp only [pi_pattern_const_decide] at h1
      cases ha : a.val.testBit i <;> cases hb : b.val.testBit i <;>
        simp [ha, hb] at h1 ⊢
    · have hle : num_pis - split_count ≤ i := le_of_not_lt hi
      have hpow : 2 ^ (num_pis - split_count) ≤ 2 ^ i :=
        Nat.pow_le_pow_right (by norm_num) hle
      have ha : a.val.testBit i = false :=
        Nat.testBit_lt_two_pow (lt_of_lt_of_le a.isLt hpow)
      have hb : b.val.testBit i = false :=
        Nat.testBit_lt_two_pow (lt_of_lt_of_le b.isLt hpow)
      rw [ha, hb]
  · simp [Fintype.card_fun]

/-- Witness for C3 at split_count = 1, num_pis = 3: the four rounds
biject onto the four assignments of the two enumerated inputs. -/
theorem round_coverage_bijective_witness :
    1 < 3 ∧
      Function.Bijective (fun r : Fin (2 ^ (3 - 1)) =>
        (fun j : Fin (3 - 1) =>
          decide (pi_pattern 1 r.val (1 + 1 + j.val) = ttConst1 1))) :=
  ⟨by decide, round_coverage_bijective 1 3 (by decide)⟩

/-! Claim C4. -/

/-- A concrete one-output miter whose output pattern is constantly zero,
used to instantiate the monotonicity part of C4. -/
def netW : MiterNet := ⟨1, 1, [(false, fun _ => ttConst0 1)]⟩

theorem verdict_after_netW (k : Nat) : verdict_after netW k = true := by
  rw [verdict_after_eq_all, List.all_eq_true]
  intro r _
  rfl

/-- C4: Equivalence Aggregator. First, folding the primary outputs into the
running verdict equals ANDing into it the conjunction, over every output,
of the test that the post-propagation pattern, complemented first exactly
when the output polarity is complemented, is the all-zero constant. Second,
the verdict of the run loop starts true and is monotonically non-increasing
across rounds: whenever the verdict is still true after j rounds it was
true after any earlier round count k, so once false it stays false. -/
theorem aggregator_fold_and_monotone :
    (∀ (pos : List (Bool × dynamic_truth_table)) (acc : Bool),
        is_equivalent_ pos acc = (acc && pos.all po_check)) ∧
    (∀ (net : MiterNet) (k j : Nat), k ≤ j →
        verdict_after net j = true → verdict_after net k = true) := by
  refine ⟨is_equivalent_eq_all, ?_⟩
  intro net k j hkj hj
  rw [verdict_after_eq_all] at hj ⊢
  exact all_range_mono _ hkj hj

/-- Witness for C4: the fold identity at one concrete complemented output,
and monotonicity of the verdict of netW from two rounds to one. -/
theorem aggregator_fold_and_monotone_witness :
    is_equivalent_ [(true, ttConst0 2)] true
        = (true && ([(true, ttConst0 2)].all po_check)) ∧
      (1 ≤ 2 ∧ verdict_after netW 2 = true ∧ verdict_after netW 1 = true) :=
  ⟨aggregator_fold_and_monotone.1 [(true, ttConst0 2)] true,
   ⟨by decide, verdict_after_netW 2,
    aggregator_fold_and_monotone.2 netW 1 2 (by decide) (verdict_after_netW 2)⟩⟩

/-! Claim C5. -/

/-- C5: No early exit. For every miter network reaching the simulation
driver, the round loop of run visits exactly the stored rounds count of
round indices, regardless of the running verdict, and the returned boolean
equals the conjunction, over all those rounds, of the per-round
all-outputs-zero tests. -/
theorem run_eq_all_rounds (net : MiterNet) :
    run net
        = (List.range (rounds_ net.numPis (split_var_ net.nodeCount net.numPis))).all
            (fun r =>
              (round_pos net (split_var_ net.nodeCount net.numPis) r).all po_check) ∧
      (List.range (rounds_ net.numPis (split_var_ net.nodeCount net.numPis))).length
        = rounds_ net.numPis (split_var_ net.nodeCount net.numPis) :=
  ⟨verdict_after_eq_all net _, List.length_range _⟩

/-! Claim C6. -/

/-- C6: Primary-input ceiling. Whenever the first network has more than 40
primary inputs, simulation_cec returns the absent optional, whatever the
miter collaborator would have produced; in particular 41 primary inputs
yield Unknown regardless of the second network. -/
theorem ceiling_returns_unknown (num_pis1 : Nat) (m : Option MiterNet)
    (h : 40 < num_pis1) :
    (simulation_cec num_pis1 m).1 = none := by
  simp [simulation_cec, h]

/-- Witness for C6 at 41 primary inputs. -/
theorem ceiling_returns_unknown_witness :
    40 < 41 ∧ (simulation_cec 41 none).1 = none :=
  ⟨by decide, ceiling_returns_unknown 41 none (by decide)⟩

/-! Claim C7. -/

/-- C7: Miter-failure verdict. When the first network has at most 40
primary inputs and the miter collaborator returns no value, simulation_cec
returns NotEquivalent (some false), not Unknown. -/
theorem miter_failure_not_equivalent (num_pis1 : Nat) (h : num_pis1 ≤ 40) :
    (simulation_cec num_pis1 none).1 = some false := by
  have h1 : ¬ (num_pis1 > 40) := Nat.not_lt.mpr h
  simp [simulation_cec, h1]

/-- Witness for C7 at 5 primary inputs. -/
theorem miter_failure_not_equivalent_witness :
    5 ≤ 40 ∧ (simulation_cec 5 none).1 = some false :=
  ⟨by decide, miter_failure_not_equivalent 5 (by decide)⟩

/-! Claim C8. -/

/-- C8 counterexample: when the ceiling is exceeded the early return comes
before the publication line, so the stats out-parameter is never written;
the claim that the split plan values are published regardless of outcome,
including when the verdict is Unknown, fails at 41 primary inputs. -/
theorem ceiling_skips_stats_publication :
    (simulation_cec 41 none).2 = none := by
  simp [simulation_cec]

/-- C8 amended: the split plan values are published into the stats
out-parameter on every path that passes the ceiling test, both when the
miter is built (the values computed by run) and when miter construction
fails (the zero-initialised values); on the ceiling-exceeded path the
function returns before the publication line and the out-parameter is left
untouched. -/
theorem stats_published_below_ceiling (num_pis1 : Nat) (m : Option MiterNet)
    (h : num_pis1 ≤ 40) :
    (simulation_cec num_pis1 m).2 = some (m.elim ⟨0, 0⟩ run_stats) := by
  have h1 : ¬ (num_pis1 > 40) := Nat.not_lt.mpr h
  cases m <;> simp [simulation_cec, h1]

/-- Witness for C8 at 7 primary inputs with a failed miter. -/
theorem stats_published_below_ceiling_witness :
    7 ≤ 40 ∧
      (simulation_cec 7 none).2
        = some ((none : Option MiterNet).elim ⟨0, 0⟩ run_stats) :=
  ⟨by decide, stats_published_below_ceiling 7 none (by decide)⟩

/-! Claim C10. -/

/-- C10: when miter construction fails below the ceiling, the stats the
caller observes through a non-null out-parameter are exactly split_var = 0
and rounds = 0 (the split planner never runs), alongside the NotEquivalent
verdict; the published split_var therefore violates the documented
invariant that 0 < splitVarCount. -/
theorem miter_failure_stats_zero (num_pis1 : Nat) (h : num_pis1 ≤ 40) :
    (simulation_cec num_pis1 none).1 = some false ∧
      (simulation_cec num_pis1 none).2 = some ⟨0, 0⟩ ∧
      ((simulation_cec num_pis1 none).2.all
          fun st => !decide (0 < st.split_var)) = true := by
  have h1 : ¬ (num_pis1 > 40) := Nat.not_lt.mpr h
  refine ⟨?_, ?_, ?_⟩ <;> simp [simulation_cec, h1, Option.all]

/-- Witness for C10 at 3 primary inputs. -/
theorem miter_failure_stats_zero_witness :
    3 ≤ 40 ∧
      ((simulation_cec 3 none).1 = some false ∧
        (simulation_cec 3 none).2 = some ⟨0, 0⟩ ∧
        ((simulation_cec 3 none).2.all
            fun st => !decide (0 < st.split_var)) = true) :=
  ⟨by decide, miter_failure_stats_zero 3 (by decide)⟩

/-! Claim C9. -/

theorem clog_two_seven : Nat.clog 2 7 = 3 := by
  rw [Nat.clog_of_two_le (by norm_num) (by norm_num)]
  norm_num
  rw [Nat.clog_of_two_le (by norm_num) (by norm_num)]
  norm_num
  rw [Nat.clog_of_two_le (by norm_num) (by norm_num)]
  norm_num

theorem max_m_exact_16700000 : max_m_exact 16700000 = 0 := by
  unfold max_m_exact
  have hx : ((2 ^ 29 : ℚ) / ((16700000 : ℕ) : ℚ) - 32) = 2470912 / 16700000 := by
    norm_num
  rw [hx]
  have hle : (2470912 / 16700000 : ℚ) ≤ 1 := by norm_num
  rw [Int.log_of_right_le_one 2 hle]
  have hinv : ((2470912 / 16700000 : ℚ)⁻¹) = 16700000 / 2470912 := by
    rw [inv_div]
  rw [hinv]
  have hceil : ⌈(16700000 / 2470912 : ℚ)⌉₊ = 7 := by
    rw [Nat.ceil_eq_iff (by norm_num)]
    constructor <;> norm_num
  rw [hceil, clog_two_seven]
  norm_num

/-- C9 counterexample: at nodeCount = 16700000 and primaryInputCount = 1
the log argument of the planner formula is 2470912 / 16700000, strictly
between one eighth and one fourth, so the double computation
log2(2^29/nodeCount - 32) + 3 truncates to 0 (modelled exactly over the
rationals by max_m_exact and split_var_exact); the plan therefore sets
splitVarCount = 0, refuting the claimed invariant 0 < splitVarCount for
every nodeCount of at least 1. -/
theorem split_var_zero_large_node_count :
    ¬ (0 < split_var_exact 16700000 1) := by
  unfold split_var_exact
  rw [max_m_exact_16700000]
  norm_num

/-- C9 amended: for every primaryInputCount of at least 1 and every
nodeCount between 1 and 16268815 (the region where the log argument of the
planner formula is at least one, so the integer model of the double
arithmetic is exact), the computed plan satisfies
0 < splitVarCount and splitVarCount is at most primaryInputCount; for
larger node counts the formula can reach maxSplit = 0 and the lower bound
fails. -/
theorem split_plan_bounds_amended (nodeCount num_pis : Nat)
    (h1 : 1 ≤ nodeCount) (h2 : nodeCount ≤ 16268815) (h3 : 1 ≤ num_pis) :
    0 < split_var_ nodeCount num_pis ∧ split_var_ nodeCount num_pis ≤ num_pis := by
  unfold split_var_
  by_cases hc : num_pis > max_m_ nodeCount
  · rw [if_pos hc]
    exact ⟨by unfold max_m_; omega, le_of_lt hc⟩
  · rw [if_neg hc]
    exact ⟨h3, le_refl _⟩

/-- Witness for the amended C9 at nodeCount = 100 and 5 primary inputs. -/
theorem split_plan_bounds_amended_witness :
    1 ≤ 100 ∧ 100 ≤ 16268815 ∧ 1 ≤ 5 ∧
      (0 < split_var_ 100 5 ∧ split_var_ 100 5 ≤ 5) :=
  ⟨by decide, by decide, by decide,
   split_plan_bounds_amended 100 5 (by decide) (by decide) (by decide)⟩

/-- The Nat reading of the planner formula agrees with the exact rational
reading everywhere the log argument is at least one, which justifies using
the Nat model for the amended bounds and the rational model only at the
boundary counterexample. -/
theorem max_m_eq_exact (nodeCount : Nat) (h1 : 1 ≤ nodeCount)
    (h2 : nodeCount ≤ 16268815) :
    (max_m_ nodeCount : ℤ) = max_m_exact nodeCount := by
  unfold max_m_ max_m_exact
  have hq : 33 ≤ 2 ^ 29 / nodeCount := by
    rw [Nat.le_div_iff_mul_le (by omega)]
    calc 33 * nodeCount ≤ 33 * 16268815 := Nat.mul_le_mul_left _ h2
    _ ≤ 2 ^ 29 := by norm_num
  have hcast : ((2 ^ 29 / nodeCount : ℕ) : ℚ) ≤ (2 ^ 29 : ℚ) / (nodeCount : ℚ) := by
    rw [le_div_iff₀ (by exact_mod_cast Nat.pos_of_ne_zero (by omega))]
    exact_mod_cast Nat.div_mul_le_self (2 ^ 29) nodeCount
  have hr1 : (1 : ℚ) ≤ (2 ^ 29 : ℚ) / (nodeCount : ℚ) - 32 := by
    have h33 : (33 : ℚ) ≤ (2 ^ 29 : ℚ) / (nodeCount : ℚ) :=
      le_trans (by exact_mod_cast hq) hcast
    linarith
  rw [Int.log_of_one_le_right 2 hr1]
  have hfloor : ⌊(2 ^ 29 : ℚ) / (nodeCount : ℚ) - 32⌋₊ = 2 ^ 29 / nodeCount - 32 := by
    rw [show (32 : ℚ) = ((32 : ℕ) : ℚ) from by norm_num, Nat.floor_sub_nat]
    rw [show ((2 : ℚ) ^ 29) = ((2 ^ 29 : ℕ) : ℚ) from by norm_num]
    rw [Nat.floor_div_nat, Nat.floor_natCast]
  rw [hfloor]
  push_cast
  ring

end Mockturtle
